import Mathlib

/-!
Verification of the `go-flow` step execution engine (main.go) against its
natural-language specification.  The Go source is shallowly embedded:

* the Variable Store (`map[string]string`) is an association list with
  last-write-wins update (`setVar`); the iteration order of Go's `save`
  maps is not observable in the verified properties, so `save` is a list;
* Go's `text/template` is embedded for the field-action subset used by
  flows (`\x7b\x7b.name\x7d\x7d` actions and literal text); templates
  outside this subset are modelled as parse failures, which `render`
  treats exactly like the source does (fail-soft: the original text);
* database / document-store / RPC drivers are modelled by their observable
  results (rows, documents, descriptors); every executor is a pure
  function of the step, the driver result and the variable store;
* machine integers (`int`, `int64`) are modelled as `Int`; byte slices
  holding JSON payloads are modelled as parsed `Json` values.
-/

namespace GoFlow

/-- Variable Store: `map[string]string` as an association list whose keys
are kept unique by `setVar`. -/
abbrev Vars := List (String × String)

/-- Lookup of a variable (Go `vars[k]` read). -/
def lookupVar (vars : Vars) (k : String) : Option String :=
  match vars with
  | [] => none
  | (k', v) :: rest => if k' = k then some v else lookupVar rest k

/-- Go map assignment `vars[k] = v`: replace the existing binding or
append a new one. -/
def setVar (vars : Vars) (k v : String) : Vars :=
  match vars with
  | [] => [(k, v)]
  | (k', v') :: rest => if k' = k then (k, v) :: rest else (k', v') :: setVar rest k v

/-- Whitespace test backing `strings.TrimSpace` (the whitespace characters
occurring in flow data). -/
def isWS (c : Char) : Bool := c.isWhitespace

/-- List-level trim: drop leading and trailing whitespace. -/
def trimChars (l : List Char) : List Char :=
  (((l.dropWhile isWS).reverse).dropWhile isWS).reverse

/-- Model of Go `strings.TrimSpace` (main.go uses it on rendered output,
SQL text and save column names). -/
def strTrim (s : String) : String := String.mk (trimChars s.data)

/-- Model of Go `strings.ToLower` on the ASCII column names occurring in
SQL result sets. -/
def strToLower (s : String) : String := String.mk (s.data.map Char.toLower)

/-- Split a gjson path at the dots (the behaviour of splitting on the
separator `"."`: an empty path yields one empty segment). -/
def splitOnDotChars : List Char → List Char → List String
  | [], acc => [String.mk acc.reverse]
  | '.' :: rest, acc => String.mk acc.reverse :: splitOnDotChars rest []
  | c :: rest, acc => splitOnDotChars rest (c :: acc)

/-- Dot-separated segments of a gjson path. -/
def strSplitOnDot (s : String) : List String := splitOnDotChars s.data []

/-- Template node of the embedded `text/template` subset: literal text or
a `.name` field action. -/
inductive TmplNode where
  | lit (s : String)
  | field (name : String)
  deriving Repr, DecidableEq

/-- Identifier characters accepted inside a field action. -/
def isIdentChar (c : Char) : Bool := c.isAlphanum || c = '_'

/-- Parser mode: scanning literal text, or inside a field action with the
accumulated (reversed) identifier characters. -/
inductive PMode where
  | text
  | action (acc : List Char)
  deriving Repr

/-- Fuel-indexed template parser (structural recursion on the fuel so that
concrete templates evaluate definitionally).  In `text` mode an opening
brace pair starts an action, which must be `.ident` followed by a closing
brace pair; anything else is a parse failure, modelling the renderer's
fail-soft branch for templates outside the embedded subset. -/
def parseStep : Nat → PMode → List Char → Option (List TmplNode)
  | 0, _, _ => none
  | _ + 1, .text, [] => some []
  | f + 1, .text, '\x7b' :: '\x7b' :: rest =>
      match rest with
      | '.' :: rest' => parseStep f (.action []) rest'
      | _ => none
  | f + 1, .text, c :: rest =>
      (parseStep f .text rest).map (fun ns => .lit (String.mk [c]) :: ns)
  | _ + 1, .action _, [] => none
  | f + 1, .action acc, '\x7d' :: '\x7d' :: rest =>
      if acc = [] then none
      else (parseStep f .text rest).map (fun ns => .field (String.mk acc.reverse) :: ns)
  | f + 1, .action acc, c :: rest =>
      if isIdentChar c then parseStep f (.action (c :: acc)) rest else none

/-- Parse a template string (fuel `length + 1` always suffices for the
subset; exhaustion is just another parse failure). -/
def parseTemplate (tmpl : String) : Option (List TmplNode) :=
  parseStep (tmpl.length + 1) .text tmpl.data

/-- Execute one node: literals pass through; a field action resolves the
variable, a missing variable yielding the empty string (this is the
`missingkey=zero` option on a `map[string]string` context,
main.go:1668). -/
def execNode (vars : Vars) : TmplNode → String
  | .lit s => s
  | .field name => (lookupVar vars name).getD ""

/-- Execute a node list, concatenating the pieces (the `bytes.Buffer` in
`render`). -/
def execNodes (vars : Vars) : List TmplNode → String
  | [] => ""
  | n :: rest => execNode vars n ++ execNodes vars rest

/-- Model of `render` (main.go:1663-1679): empty template renders empty;
a template that fails to parse (or execute) is returned unchanged; a
successful render is trimmed of surrounding whitespace.  In the embedded
subset execution is total, so the execute-failure branch of the source is
subsumed by the parse-failure branch. -/
def render (tmpl : String) (vars : Vars) : String :=
  if tmpl = "" then ""
  else
    match parseTemplate tmpl with
    | none => tmpl
    | some nodes => strTrim (execNodes vars nodes)

/-- Mongo block of a step (main.go:90-101); only presence and the fields
feeding the document-store executor matter here, the executor itself
being modelled over driver outcomes. -/
structure MongoStep where
  operation : String := ""
  deriving Repr, DecidableEq

/-- GRPC block of a step (main.go:103-121), reduced to the fields the
verified logic inspects. -/
structure GRPCStep where
  target : String := ""
  method : String := ""
  deriving Repr, DecidableEq

/-- Step model (main.go:71-88): the fields consumed by the execution
engine.  Connection-resolution fields (`database_url`, mongo URI, TLS
options, ...) are resolved before the verified logic runs and are
omitted. -/
structure Step where
  name : String := ""
  method : String := ""
  url : String := ""
  save : List (String × String) := []
  sql : String := ""
  expectAffectedRows : Int := 0
  mongo : Option MongoStep := none
  grpc : Option GRPCStep := none
  deriving Repr

/-- Error test on a step-level result. -/
def isErr {α : Type} (e : Except String α) : Bool :=
  match e with
  | .error _ => true
  | .ok _ => false

/-- Model of `ensureExpectedAffectedRows` (main.go:1572-1586): a zero
expectation skips the check, otherwise a mismatch fails the step. -/
def ensureExpectedAffectedRows (step : Step) (affectedRows : Int) : Except String Unit :=
  if step.expectAffectedRows = 0 || affectedRows = step.expectAffectedRows then
    .ok ()
  else
    .error ("step \"" ++ step.name ++ "\" failed: unexpected affected rows " ++ toString affectedRows)

/-- Canonical JSON value: the parsed form of the byte payloads that
`saveValues` queries with gjson paths.  Numbers are modelled as the
integers occurring in flow data. -/
inductive Json where
  | null
  | bool (b : Bool)
  | num (n : Int)
  | str (s : String)
  | arr (elems : List Json)
  | obj (fields : List (String × Json))
  deriving Repr

/-- Field lookup in a JSON object (first matching key). -/
def lookupField : List (String × Json) → String → Option Json
  | [], _ => none
  | (k, v) :: rest, key => if k = key then some v else lookupField rest key

/-- One gjson path segment: an object key, or a numeric index into an
array. -/
def jsonGetSeg (j : Json) (seg : String) : Option Json :=
  match j with
  | .obj fields => lookupField fields seg
  | .arr elems =>
      match seg.toNat? with
      | some i => elems.get? i
      | none => none
  | _ => none

/-- Dot-path navigation over canonical JSON (gjson `GetBytes`). -/
def jsonGetPath : Json → List String → Option Json
  | j, [] => some j
  | j, seg :: rest =>
      match jsonGetSeg j seg with
      | none => none
      | some j' => jsonGetPath j' rest

/-- Serializer mode packaging the three shapes the raw-JSON printer walks
(a value, an element list, a field list). -/
inductive JMode where
  | one (j : Json)
  | many (l : List Json)
  | fields (l : List (String × Json))

/-- Raw JSON printer (string escaping elided: flow data does not contain
characters needing escapes). -/
def jsonRawM : JMode → String
  | .one .null => "null"
  | .one (.bool b) => if b then "true" else "false"
  | .one (.num n) => toString n
  | .one (.str s) => "\"" ++ s ++ "\""
  | .one (.arr es) => "[" ++ jsonRawM (.many es) ++ "]"
  | .one (.obj fs) => "\x7b" ++ jsonRawM (.fields fs) ++ "\x7d"
  | .many [] => ""
  | .many [j] => jsonRawM (.one j)
  | .many (j :: rest) => jsonRawM (.one j) ++ "," ++ jsonRawM (.many rest)
  | .fields [] => ""
  | .fields [(k, j)] => "\"" ++ k ++ "\":" ++ jsonRawM (.one j)
  | .fields ((k, j) :: rest) =>
      "\"" ++ k ++ "\":" ++ jsonRawM (.one j) ++ "," ++ jsonRawM (.fields rest)
  termination_by m => sizeOf m
  decreasing_by
    all_goals simp_wf
    all_goals omega

/-- Raw JSON text of a value. -/
def jsonRaw (j : Json) : String := jsonRawM (.one j)

/-- Model of gjson `Result.String()`: absent and null results print as the
empty string, scalars print their value, arrays and objects print their
raw JSON. -/
def jsonValueString : Option Json → String
  | none => ""
  | some .null => ""
  | some (.bool b) => if b then "true" else "false"
  | some (.num n) => toString n
  | some (.str s) => s
  | some (.arr es) => jsonRaw (.arr es)
  | some (.obj fs) => jsonRaw (.obj fs)

/-- Model of `gjson.GetBytes(resp, path).String()` for dot paths. -/
def gjsonGetString (resp : Json) (path : String) : String :=
  jsonValueString (jsonGetPath resp (strSplitOnDot path))

/-- Model of `saveValues` (main.go:1637-1661): per save entry, an empty
extracted value is skipped (the variable stays unset) and the remaining
entries are still processed; a non-empty value is stored.  The function
is total: path extraction never fails a step. -/
def saveValuesEntries (resp : Json) : List (String × String) → Vars → Vars
  | [], vars => vars
  | (varName, jsonPath) :: rest, vars =>
      let val := gjsonGetString resp jsonPath
      if val = "" then saveValuesEntries resp rest vars
      else saveValuesEntries resp rest (setVar vars varName val)

/-- Entry point matching the source's `saveValues(respBytes, save, vars)`. -/
def saveValues (resp : Json) (save : List (String × String)) (vars : Vars) : Vars :=
  saveValuesEntries resp save vars

/-- Dispatch decision of `executeStep` (main.go:612-629). -/
inductive StepDispatch where
  | sql (stmt : String)
  | mongo
  | grpc
  | http
  | configError (msg : String)
  deriving Repr, DecidableEq

/-- Classification logic of `executeStep` (main.go:612-629): non-empty
rendered-and-trimmed SQL wins, then a present mongo block, then a present
grpc block, then HTTP when both method and url are non-empty, otherwise
the configuration error. -/
def classifyExecuteStep (step : Step) (vars : Vars) : StepDispatch :=
  let sqlStmt := strTrim (render step.sql vars)
  if sqlStmt ≠ "" then .sql sqlStmt
  else if step.mongo.isSome then .mongo
  else if step.grpc.isSome then .grpc
  else if step.method = "" || step.url = "" then
    .configError ("step \"" ++ step.name ++ "\" requires sql, grpc, or method/url fields")
  else .http

/-- Result set of a successful SQL query: column names plus rows, each row
value either NULL (`none`) or its `anyToString` text form. -/
structure SQLQueryResult where
  columns : List String
  rows : List (List (Option String))
  deriving Repr

/-- Driver outcomes for one SQL step: the `ExecContext` result (affected
rows) and the `QueryContext` result. -/
structure SQLDb where
  execResult : Except String Int
  queryResult : Except String SQLQueryResult

/-- Column index construction and lookup of `runSQLAndSave`
(main.go:1491-1494): keys are lower-cased column names, a later duplicate
overwriting an earlier one. -/
def columnIndexGo (key : String) : List String → Nat → Option Nat → Option Nat
  | [], _, acc => acc
  | c :: rest, i, acc =>
      columnIndexGo key rest (i + 1) (if strToLower c = key then some i else acc)

/-- Lookup `columnIndex[strings.ToLower(target)]`. -/
def columnIndexLookup (cols : List String) (target : String) : Option Nat :=
  columnIndexGo (strToLower target) cols 0 none

/-- Save-entry target column (main.go:1535-1538): the trimmed column spec,
defaulting to the variable name when empty. -/
def saveTarget (varName column : String) : String :=
  let t := strTrim column
  if t = "" then varName else t

/-- Model of `saveRowValues` (main.go:1533-1561) over the entries of the
save map: an unmatched column is a hard error; a NULL value is skipped
(the variable stays unset) and the remaining entries are processed.
Row access models `rowValues[idx]`, `idx` being in range in the source
because the scan targets have one slot per column. -/
def saveRowEntries (stepName : String) (cols : List String) (rowValues : List (Option String)) :
    List (String × String) → Vars → Except String Vars
  | [], vars => .ok vars
  | (varName, column) :: rest, vars =>
      let target := saveTarget varName column
      match columnIndexLookup cols target with
      | none =>
          .error ("step \"" ++ stepName ++ "\": column \"" ++ target ++ "\" not found in result set")
      | some idx =>
          match rowValues.get? idx with
          | some (some text) => saveRowEntries stepName cols rowValues rest (setVar vars varName text)
          | _ => saveRowEntries stepName cols rowValues rest vars

/-- Entry point matching the source's `saveRowValues(step, vars, values,
columnIndex)`. -/
def saveRowValues (step : Step) (vars : Vars) (rowValues : List (Option String))
    (cols : List String) : Except String Vars :=
  saveRowEntries step.name cols rowValues step.save vars

/-- Row loop of `runSQLAndSave` (main.go:1503-1530): values are saved from
the first row only, every row increments the affected count, and a
zero-row result is the hard error `no rows returned to save`. -/
def runSQLAndSaveLoop (step : Step) (cols : List String) :
    List (List (Option String)) → Vars → Bool → Int → Except String (Int × Vars)
  | [], vars, _, affectedRows =>
      if affectedRows = 0 then
        .error ("execute sql for step \"" ++ step.name ++ "\": no rows returned to save")
      else .ok (affectedRows, vars)
  | row :: rest, vars, savedFirstRow, affectedRows =>
      if savedFirstRow then runSQLAndSaveLoop step cols rest vars true (affectedRows + 1)
      else
        match saveRowValues step vars row cols with
        | .error e => .error e
        | .ok vars' => runSQLAndSaveLoop step cols rest vars' true (affectedRows + 1)

/-- Model of `runSQLAndSave` (main.go:1479-1531). -/
def runSQLAndSave (step : Step) (db : SQLDb) (vars : Vars) : Except String (Int × Vars) :=
  match db.queryResult with
  | .error e => .error ("query sql for step \"" ++ step.name ++ "\": " ++ e)
  | .ok res => runSQLAndSaveLoop step res.columns res.rows vars false 0

/-- Model of `runSQLWithoutSave` (main.go:1465-1477): the statement is
executed and the driver-reported affected-row count is returned; a
zero count is not an error here. -/
def runSQLWithoutSave (step : Step) (db : SQLDb) : Except String Int :=
  match db.execResult with
  | .error e => .error ("execute sql for step \"" ++ step.name ++ "\": " ++ e)
  | .ok n => .ok n

/-- Model of `executeSQLAndMaybeSave` (main.go:1457-1463). -/
def executeSQLAndMaybeSave (step : Step) (db : SQLDb) (vars : Vars) : Except String (Int × Vars) :=
  if step.save.isEmpty then
    match runSQLWithoutSave step db with
    | .error e => .error e
    | .ok n => .ok (n, vars)
  else runSQLAndSave step db vars

/-- Post-connection core of `executeSQLStep` (main.go:1623-1631): run the
statement, then check the affected-row expectation. -/
def executeSQLStepCore (step : Step) (db : SQLDb) (vars : Vars) : Except String Vars :=
  match executeSQLAndMaybeSave step db vars with
  | .error e => .error e
  | .ok (affectedRows, vars') =>
      match ensureExpectedAffectedRows step affectedRows with
      | .error e => .error e
      | .ok _ => .ok vars'

/-- Driver outcome of one successful document-store operation
(main.go:778-942), carrying the data each branch inspects. -/
inductive MongoOutcome where
  | findOne (found : Option Json)
  | find (docs : List Json)
  | aggregate (docs : List Json)
  | insertOne (insertedId : Json)
  | updateOne (matched modified upserted : Int) (upsertedId : Option Json)
  | deleteOne (deleted : Int)
  | command (result : Json)

/-- Affected count per operation (main.go:778-942): findOne 0/1, find and
aggregate the document count, insertOne and command always 1, updateOne
the modified count or the upsert count when nothing was modified,
deleteOne the deleted count. -/
def mongoAffected : MongoOutcome → Int
  | .findOne none => 0
  | .findOne (some _) => 1
  | .find docs => docs.length
  | .aggregate docs => docs.length
  | .insertOne _ => 1
  | .updateOne _ modified upserted _ => if modified = 0 ∧ 0 < upserted then upserted else modified
  | .deleteOne deleted => deleted
  | .command _ => 1

/-- Result payload per operation (main.go:778-942); `findOne` with no
match yields the literal JSON null payload. -/
def mongoResultPayload : MongoOutcome → Json
  | .findOne none => Json.null
  | .findOne (some doc) => doc
  | .find docs => .arr docs
  | .aggregate docs => .arr docs
  | .insertOne insertedId => .obj [("inserted_id", insertedId)]
  | .updateOne matched modified upserted upsertedId =>
      .obj ([("matched_count", .num matched), ("modified_count", .num modified),
             ("upserted_count", .num upserted)] ++
        (match upsertedId with
         | some j => [("upserted_id", j)]
         | none => []))
  | .deleteOne deleted => .obj [("deleted_count", .num deleted)]
  | .command result => result

/-- Post-operation core of `executeMongoStep` (main.go:944-956): the
affected-row expectation is checked for every operation, then save paths
are extracted from the payload. -/
def executeMongoStepCore (step : Step) (outcome : MongoOutcome) (vars : Vars) :
    Except String (Int × Json × Vars) :=
  let affected := mongoAffected outcome
  let payload := mongoResultPayload outcome
  match ensureExpectedAffectedRows step affected with
  | .error e => .error e
  | .ok _ =>
      let vars' := if step.save.isEmpty then vars else saveValues payload step.save vars
      .ok (affected, payload, vars')

/-- Extension field descriptor, identified by its field number
(`GetNumber`). -/
structure FieldDesc where
  name : String
  number : Int
  deriving Repr, DecidableEq

/-- Descriptor source capability set (grpcurl `DescriptorSource`): symbol
payloads are opaque and modelled as strings. -/
structure DescriptorSource where
  listServices : Except String (List String)
  findSymbol : String → Except String String
  allExtensionsForType : String → Except String (List FieldDesc)

/-- Composite of a reflection-backed and a file-backed source
(main.go:1415-1418). -/
structure CompositeDescriptorSource where
  reflection : DescriptorSource
  file : DescriptorSource

/-- Model of `compositeDescriptorSource.FindSymbol` (main.go:1424-1429):
reflection first, file only on a reflection miss. -/
def compositeFindSymbol (cs : CompositeDescriptorSource) (name : String) : Except String String :=
  match cs.reflection.findSymbol name with
  | .ok d => .ok d
  | .error _ => cs.file.findSymbol name

/-- Model of `compositeDescriptorSource.AllExtensionsForType`
(main.go:1431-1455): reflection failure falls back to the file source;
otherwise file extensions are appended, skipping field numbers already
present among the reflection extensions. -/
def compositeAllExtensionsForType (cs : CompositeDescriptorSource) (typeName : String) :
    Except String (List FieldDesc) :=
  match cs.reflection.allExtensionsForType typeName with
  | .error _ => cs.file.allExtensionsForType typeName
  | .ok exts =>
      match cs.file.allExtensionsForType typeName with
      | .error _ => .ok exts
      | .ok fileExts =>
          .ok (exts ++ fileExts.filter (fun e => !(exts.any (fun r => r.number = e.number))))

/-- One record of the Export Sink (main.go:133-136). -/
structure ExportRecord where
  step : String
  vars : List (String × String)
  deriving Repr, DecidableEq

/-- Model of `varExporter.Record` (main.go:179-191). -/
def varExporterRecord (records : List ExportRecord) (stepName : String)
    (values : List (String × String)) : List ExportRecord :=
  records ++ [{ step := stepName, vars := values }]

/-- JSON string literal (escaping elided). -/
def jsonQuote (s : String) : String := "\"" ++ s ++ "\""

/-- Encoded `vars` object of one export record. -/
def encodeExportVarsGo : List (String × String) → String
  | [] => ""
  | [(k, v)] => jsonQuote k ++ ":" ++ jsonQuote v
  | (k, v) :: rest => jsonQuote k ++ ":" ++ jsonQuote v ++ "," ++ encodeExportVarsGo rest

/-- Encoded `vars` object with its braces. -/
def encodeExportVars (values : List (String × String)) : String :=
  "\x7b" ++ encodeExportVarsGo values ++ "\x7d"

/-- Encoded export record. -/
def encodeExportRecord (r : ExportRecord) : String :=
  "\x7b\"step\":" ++ jsonQuote r.step ++ ",\"vars\":" ++ encodeExportVars r.vars ++ "\x7d"

/-- Encoded record list body. -/
def encodeExportRecordsGo : List ExportRecord → String
  | [] => ""
  | [r] => encodeExportRecord r
  | r :: rest => encodeExportRecord r ++ "," ++ encodeExportRecordsGo rest

/-- Bytes written by `varExporter.Close` (main.go:193-212) into the file
created by `newVarExporter` (main.go:167-177): the records slice is
encoded unconditionally, an empty slice encoding as the empty JSON array
(indentation and the trailing newline of the Go encoder are elided). -/
def varExporterCloseOutput (records : List ExportRecord) : String :=
  "[" ++ encodeExportRecordsGo records ++ "]"

/-- Reflection-backed fixture source used by concrete witnesses. -/
def reflFixture : DescriptorSource where
  listServices := .ok ["pkg.Svc"]
  findSymbol := fun n => if n = "pkg.A" then .ok "reflA" else .error "Symbol not found: "
  allExtensionsForType := fun _ => .ok [⟨"reflExt1", 1⟩, ⟨"reflExt2", 2⟩]

/-- File-backed fixture source used by concrete witnesses. -/
def fileFixture : DescriptorSource where
  listServices := .ok []
  findSymbol := fun n => if n = "pkg.B" then .ok "fileB" else .error "Symbol not found: "
  allExtensionsForType := fun _ => .ok [⟨"fileExt2", 2⟩, ⟨"fileExt3", 3⟩]

/-- Second file-backed fixture source (differs from `fileFixture`), used
to witness that a reflection hit never consults the file source. -/
def fileFixture2 : DescriptorSource where
  listServices := .ok []
  findSymbol := fun _ => .error "unavailable"
  allExtensionsForType := fun _ => .error "unavailable"

/-- C6: a non-zero `expect_affected_rows` fails the step iff the computed
affected-row count differs from it; a zero expectation always passes,
whatever the actual count. -/
theorem c6_expect_affected_rows :
    (∀ (step : Step) (n : Int), step.expectAffectedRows = 0 →
      ensureExpectedAffectedRows step n = .ok ()) ∧
    (∀ (step : Step) (n : Int), step.expectAffectedRows ≠ 0 →
      (isErr (ensureExpectedAffectedRows step n) = true ↔ n ≠ step.expectAffectedRows)) := by
  constructor
  · intro step n h
    simp [ensureExpectedAffectedRows, h]
  · intro step n h
    by_cases hn : n = step.expectAffectedRows
    · simp [ensureExpectedAffectedRows, hn, isErr]
    · simp [ensureExpectedAffectedRows, hn, h, isErr]

/-- C6 witness: `expect=2, actual=2` passes; `expect=2, actual=1` fails;
`expect=0, actual=5` passes. -/
theorem c6_expect_affected_rows_witness :
    ensureExpectedAffectedRows { name := "users", expectAffectedRows := 2 } 2 = .ok () ∧
    isErr (ensureExpectedAffectedRows { name := "users", expectAffectedRows := 2 } 1) = true ∧
    ensureExpectedAffectedRows { name := "users", expectAffectedRows := 0 } 5 = .ok () := by
  refine ⟨?_, ?_, ?_⟩
  · have h := (c6_expect_affected_rows.2 { name := "users", expectAffectedRows := 2 } 2 (by decide))
    by_cases he : isErr (ensureExpectedAffectedRows { name := "users", expectAffectedRows := 2 } 2) = true
    · exact absurd (h.mp he) (by decide)
    · cases hev : ensureExpectedAffectedRows { name := "users", expectAffectedRows := 2 } 2 with
      | error e => exact absurd (by simp [isErr, hev]) he
      | ok u => cases u; rfl
  · exact (c6_expect_affected_rows.2 { name := "users", expectAffectedRows := 2 } 1 (by decide)).mpr (by decide)
  · exact c6_expect_affected_rows.1 { name := "users", expectAffectedRows := 0 } 5 rfl

/-- Dropping a prefix twice is the same as dropping it once. -/
lemma dropWhile_idem {α : Type} (p : α → Bool) (l : List α) :
    (l.dropWhile p).dropWhile p = l.dropWhile p := by
  induction l with
  | nil => rfl
  | cons a t ih =>
      by_cases h : p a
      · simp [List.dropWhile_cons, h, ih]
      · simp [List.dropWhile_cons, h]

/-- Head of a dropWhile result never satisfies the predicate. -/
lemma head?_dropWhile_false {α : Type} (p : α → Bool) (l : List α) :
    ∀ a, (l.dropWhile p).head? = some a → p a = false := by
  induction l with
  | nil => intro a h; simp at h
  | cons b t ih =>
      intro a h
      by_cases hb : p b
      · rw [List.dropWhile_cons, if_pos hb] at h
        exact ih a h
      · rw [List.dropWhile_cons, if_neg hb] at h
        simp only [List.head?_cons, Option.some.injEq] at h
        subst h
        simpa using hb

/-- A dropWhile result is a suffix of the input. -/
lemma exists_prefix_dropWhile {α : Type} (p : α → Bool) (l : List α) :
    ∃ t, l = t ++ l.dropWhile p := by
  induction l with
  | nil => exact ⟨[], rfl⟩
  | cons a t ih =>
      by_cases h : p a
      · obtain ⟨u, hu⟩ := ih
        refine ⟨a :: u, ?_⟩
        rw [List.dropWhile_cons, if_pos h, List.cons_append]
        exact congrArg (a :: ·) hu
      · refine ⟨[], ?_⟩
        rw [List.dropWhile_cons, if_neg h, List.nil_append]

/-- A list whose head does not satisfy the predicate is untouched by
dropWhile. -/
lemma dropWhile_eq_self_of_head {α : Type} (p : α → Bool) (l : List α)
    (h : ∀ a, l.head? = some a → p a = false) : l.dropWhile p = l := by
  cases l with
  | nil => rfl
  | cons a t =>
      rw [List.dropWhile_cons, if_neg]
      simp [h a rfl]

/-- Trimming is idempotent at the character-list level. -/
lemma trimChars_idem (l : List Char) : trimChars (trimChars l) = trimChars l := by
  have key : (trimChars l).dropWhile isWS = trimChars l := by
    apply dropWhile_eq_self_of_head
    intro a ha
    unfold trimChars at ha
    rw [List.head?_reverse] at ha
    obtain ⟨t, ht⟩ := exists_prefix_dropWhile isWS ((l.dropWhile isWS).reverse)
    cases hE : (l.dropWhile isWS).reverse.dropWhile isWS with
    | nil => rw [hE] at ha; simp at ha
    | cons e E' =>
        rw [hE] at ha ht
        have h1 : ((l.dropWhile isWS).reverse).getLast? = some a := by
          rw [ht, List.getLast?_append_cons]
          exact ha
        rw [List.getLast?_reverse] at h1
        exact head?_dropWhile_false isWS l a h1
  have h2 : (trimChars l).reverse = (l.dropWhile isWS).reverse.dropWhile isWS := by
    unfold trimChars
    rw [List.reverse_reverse]
  show ((((trimChars l).dropWhile isWS).reverse).dropWhile isWS).reverse = trimChars l
  rw [key, h2, dropWhile_idem]
  rfl

/-- Trimming is idempotent at the string level. -/
lemma strTrim_idem (s : String) : strTrim (strTrim s) = strTrim s := by
  unfold strTrim
  exact congrArg String.mk (trimChars_idem s.data)

/-- Render of a template outside the parsed subset returns the original
text. -/
lemma render_parse_fail (tmpl : String) (vars : Vars) (h : parseTemplate tmpl = none) :
    render tmpl vars = tmpl := by
  by_cases he : tmpl = ""
  · subst he
    have h0 : parseTemplate "" = some [] := rfl
    rw [h0] at h
    simp at h
  · simp [render, he, h]

/-- Render of a parsed template is the trimmed execution result. -/
lemma render_parse_ok (tmpl : String) (vars : Vars) (nodes : List TmplNode)
    (h : parseTemplate tmpl = some nodes) :
    render tmpl vars = strTrim (execNodes vars nodes) := by
  by_cases he : tmpl = ""
  · subst he
    have h0 : parseTemplate "" = some [] := rfl
    rw [h0] at h
    injection h with h
    subst h
    rfl
  · simp [render, he, h]

/-- C4: variable references render to their values
(`render("\x7b\x7b.x\x7d\x7d", \x7bx:"5"\x7d) = "5"`); a missing variable
resolves to the empty string without error; a template that fails to
parse (or execute) renders to its own original text; and every
successfully rendered output is trimmed of surrounding whitespace. -/
theorem c4_render :
    render "\x7b\x7b.x\x7d\x7d" [("x", "5")] = "5" ∧
    render "\x7b\x7b.missing\x7d\x7d" [] = "" ∧
    (∀ (vars : Vars) (name : String), lookupVar vars name = none →
      execNode vars (.field name) = "") ∧
    (∀ (tmpl : String) (vars : Vars), parseTemplate tmpl = none →
      render tmpl vars = tmpl) ∧
    (∀ (tmpl : String) (vars : Vars) (nodes : List TmplNode), parseTemplate tmpl = some nodes →
      render tmpl vars = strTrim (execNodes vars nodes) ∧
      strTrim (render tmpl vars) = render tmpl vars) := by
  refine ⟨by decide, by decide, ?_, render_parse_fail, ?_⟩
  · intro vars name h
    simp [execNode, h]
  · intro tmpl vars nodes h
    refine ⟨render_parse_ok tmpl vars nodes h, ?_⟩
    rw [render_parse_ok tmpl vars nodes h]
    exact strTrim_idem _


/-- C4 witness: a malformed template renders to itself, and a rendered
template with surrounding whitespace comes out trimmed. -/
theorem c4_render_witness :
    render "\x7b\x7bbad" [("y", "2")] = "\x7b\x7bbad" ∧
    render " Hello \x7b\x7b.name\x7d\x7d " [("name", "codex")] =
      strTrim (execNodes [("name", "codex")]
        [.lit " ", .lit "H", .lit "e", .lit "l", .lit "l", .lit "o", .lit " ",
         .field "name", .lit " "]) := by
  constructor
  · exact c4_render.2.2.2.1 "\x7b\x7bbad" [("y", "2")] (by decide)
  · exact (c4_render.2.2.2.2 " Hello \x7b\x7b.name\x7d\x7d " [("name", "codex")]
      [.lit " ", .lit "H", .lit "e", .lit "l", .lit "l", .lit "o", .lit " ",
       .field "name", .lit " "] (by decide)).1

/-- C2 (code bug evidence): `varExporter.Close` encodes the record slice
unconditionally, so with zero records it still writes the two-byte empty
JSON array into the export file created by `newVarExporter` — it does not
write nothing. -/
theorem c2_close_writes_without_records :
    varExporterCloseOutput [] = "[]" ∧ (varExporterCloseOutput []).length = 2 :=
  ⟨rfl, rfl⟩

/-- C3 counterexample: a step with no protocol fields set fails with the
message `step %q requires sql, grpc, or method/url fields`, not with the
message the claim quotes. -/
theorem c3_counterexample :
    classifyExecuteStep { name := "s" } [] =
      .configError "step \"s\" requires sql, grpc, or method/url fields" ∧
    ("step \"s\" requires sql, grpc, or method/url fields" ==
      "step requires one of sql/mongo/grpc/http fields") = false :=
  ⟨rfl, by decide⟩

/-- C3 (amended): classification order is exactly non-empty rendered SQL,
then a present mongo block, then a present grpc block, then HTTP when
method and url are both non-empty, otherwise the configuration error
`step %q requires sql, grpc, or method/url fields`. -/
theorem c3_classification_order :
    (∀ (step : Step) (vars : Vars), strTrim (render step.sql vars) ≠ "" →
      classifyExecuteStep step vars = .sql (strTrim (render step.sql vars))) ∧
    (∀ (step : Step) (vars : Vars) (m : MongoStep),
      strTrim (render step.sql vars) = "" → step.mongo = some m →
      classifyExecuteStep step vars = .mongo) ∧
    (∀ (step : Step) (vars : Vars) (g : GRPCStep),
      strTrim (render step.sql vars) = "" → step.mongo = none → step.grpc = some g →
      classifyExecuteStep step vars = .grpc) ∧
    (∀ (step : Step) (vars : Vars),
      strTrim (render step.sql vars) = "" → step.mongo = none → step.grpc = none →
      step.method ≠ "" → step.url ≠ "" →
      classifyExecuteStep step vars = .http) ∧
    (∀ (step : Step) (vars : Vars),
      strTrim (render step.sql vars) = "" → step.mongo = none → step.grpc = none →
      (step.method = "" ∨ step.url = "") →
      classifyExecuteStep step vars =
        .configError ("step \"" ++ step.name ++ "\" requires sql, grpc, or method/url fields")) := by
  refine ⟨?_, ?_, ?_, ?_, ?_⟩
  · intro step vars h
    simp [classifyExecuteStep, h]
  · intro step vars m h hm
    simp [classifyExecuteStep, h, hm]
  · intro step vars g h hm hg
    simp [classifyExecuteStep, h, hm, hg]
  · intro step vars h hm hg hmethod hurl
    simp [classifyExecuteStep, h, hm, hg, hmethod, hurl]
  · intro step vars h hm hg hmu
    rcases hmu with hmu | hmu <;> simp [classifyExecuteStep, h, hm, hg, hmu]

/-- C3 witness: the order is observable on concrete steps — a step with
both a mongo and a grpc block classifies as mongo, and one with only a
grpc block as grpc. -/
theorem c3_classification_order_witness :
    classifyExecuteStep { name := "a", mongo := some {}, grpc := some {} } [] = .mongo ∧
    classifyExecuteStep { name := "b", grpc := some {}, method := "GET", url := "u" } [] = .grpc :=
  ⟨c3_classification_order.2.1 { name := "a", mongo := some {}, grpc := some {} } [] {} rfl rfl,
   c3_classification_order.2.2.1 { name := "b", grpc := some {}, method := "GET", url := "u" } []
     {} rfl rfl rfl⟩

/-- A save entry whose gjson path resolves to nothing is skipped, the
remaining entries still being processed. -/
lemma saveValuesEntries_skip (resp : Json) (k p : String) (rest : List (String × String))
    (vars : Vars) (h : gjsonGetString resp p = "") :
    saveValuesEntries resp ((k, p) :: rest) vars = saveValuesEntries resp rest vars := by
  simp [saveValuesEntries, h]

/-- A save entry whose gjson path resolves to a non-empty value stores it,
the remaining entries still being processed. -/
lemma saveValuesEntries_set (resp : Json) (k p : String) (rest : List (String × String))
    (vars : Vars) (v : String) (h : gjsonGetString resp p = v) (hv : v ≠ "") :
    saveValuesEntries resp ((k, p) :: rest) vars =
      saveValuesEntries resp rest (setVar vars k v) := by
  subst h
  simp [saveValuesEntries, hv]

/-- A document-store step with no affected-row expectation never fails
after a successful operation: save handling is total. -/
lemma mongo_ok_of_expect_zero (step : Step) (outcome : MongoOutcome) (vars : Vars)
    (h : step.expectAffectedRows = 0) :
    isErr (executeMongoStepCore step outcome vars) = false := by
  simp [executeMongoStepCore, ensureExpectedAffectedRows, h, isErr]

/-- A NULL value in a matched column is skipped, the remaining save
entries still being processed. -/
lemma saveRowEntries_null_skip (stepName : String) (cols : List String)
    (row : List (Option String)) (k col : String) (rest : List (String × String))
    (vars : Vars) (idx : Nat)
    (h1 : columnIndexLookup cols (saveTarget k col) = some idx)
    (h2 : row.get? idx = some none) :
    saveRowEntries stepName cols row ((k, col) :: rest) vars =
      saveRowEntries stepName cols row rest vars := by
  rw [List.get?_eq_getElem?] at h2
  simp [saveRowEntries, h1, h2]

/-- A SQL query with save declared that returns zero rows is the hard
error `no rows returned to save`. -/
lemma sql_zero_rows_error (step : Step) (db : SQLDb) (vars : Vars) (res : SQLQueryResult)
    (hsave : step.save ≠ []) (hq : db.queryResult = .ok res) (hrows : res.rows = []) :
    executeSQLStepCore step db vars =
      .error ("execute sql for step \"" ++ step.name ++ "\": no rows returned to save") := by
  cases hs : step.save with
  | nil => exact absurd hs hsave
  | cons a l =>
      simp [executeSQLStepCore, executeSQLAndMaybeSave, hs, runSQLAndSave, hq, hrows,
        runSQLAndSaveLoop]

/-- A SQL statement without save reporting zero affected rows succeeds
when no expectation is set. -/
lemma sql_no_save_ok (step : Step) (db : SQLDb) (vars : Vars)
    (hsave : step.save = []) (hexp : step.expectAffectedRows = 0)
    (hexec : db.execResult = .ok 0) :
    executeSQLStepCore step db vars = .ok vars := by
  simp [executeSQLStepCore, executeSQLAndMaybeSave, hsave, runSQLWithoutSave, hexec,
    ensureExpectedAffectedRows, hexp]

/-- Once the first row is saved, the loop only counts the remaining
rows. -/
lemma runSQLAndSaveLoop_true (step : Step) (cols : List String) :
    ∀ (rows : List (List (Option String))) (vars : Vars) (a : Int), 0 < a →
      runSQLAndSaveLoop step cols rows vars true a = .ok (a + rows.length, vars) := by
  intro rows
  induction rows with
  | nil =>
      intro vars a ha
      have : a ≠ 0 := by omega
      simp [runSQLAndSaveLoop, this]
  | cons r rest ih =>
      intro vars a ha
      have h2 := ih vars (a + 1) (by omega)
      simp only [runSQLAndSaveLoop, if_pos, h2, List.length_cons]
      congr 2
      push_cast
      omega

/-- `runSQLAndSave` on a non-empty result extracts from the first row
only and reports the total row count as affected. -/
lemma runSQLAndSave_first_row (step : Step) (db : SQLDb) (vars : Vars) (res : SQLQueryResult)
    (row : List (Option String)) (rest : List (List (Option String)))
    (hq : db.queryResult = .ok res) (hrows : res.rows = row :: rest) :
    runSQLAndSave step db vars =
      (saveRowValues step vars row res.columns).map
        (fun v => (((row :: rest).length : Int), v)) := by
  cases hsv : saveRowValues step vars row res.columns with
  | error e => simp [runSQLAndSave, hq, hrows, runSQLAndSaveLoop, hsv, Except.map]
  | ok vars' =>
      have h2 := runSQLAndSaveLoop_true step res.columns rest vars' 1 (by omega)
      simp [runSQLAndSave, hq, hrows, runSQLAndSaveLoop, hsv, h2, Except.map, List.length_cons]
      omega

/-- Column lookup only depends on the lower-cased target. -/
lemma columnIndexLookup_congr (cols : List String) (t1 t2 : String)
    (h : strToLower t1 = strToLower t2) :
    columnIndexLookup cols t1 = columnIndexLookup cols t2 := by
  simp [columnIndexLookup, h]

/-- An empty save value makes the variable name itself the target
column. -/
lemma saveRowEntries_default_col (stepName : String) (cols : List String)
    (row : List (Option String)) (k : String) (rest : List (String × String)) (vars : Vars)
    (h : strTrim k = k) :
    saveRowEntries stepName cols row ((k, "") :: rest) vars =
      saveRowEntries stepName cols row ((k, k) :: rest) vars := by
  have ht : saveTarget k "" = k := by
    simp [saveTarget, show strTrim "" = "" from rfl]
  have ht2 : saveTarget k k = k := by
    by_cases hk : strTrim k = ""
    · simp [saveTarget, hk]
    · simp [saveTarget, hk, h]
  simp [saveRowEntries, ht, ht2]

/-- Reflection hit: the composite resolves from reflection and never
consults the file source (the result does not depend on it). -/
lemma compositeFindSymbol_ok (rs f1 f2 : DescriptorSource) (name d : String)
    (h : rs.findSymbol name = .ok d) :
    compositeFindSymbol ⟨rs, f1⟩ name = .ok d ∧
    compositeFindSymbol ⟨rs, f1⟩ name = compositeFindSymbol ⟨rs, f2⟩ name := by
  constructor <;> simp [compositeFindSymbol, h]

/-- Reflection miss: the composite falls back to the file source. -/
lemma compositeFindSymbol_fallback (rs f : DescriptorSource) (name e : String)
    (h : rs.findSymbol name = .error e) :
    compositeFindSymbol ⟨rs, f⟩ name = f.findSymbol name := by
  simp [compositeFindSymbol, h]

/-- Extension listing when both sources succeed: reflection extensions
followed by the file extensions whose field numbers are new. -/
lemma compositeAllExt_ok (cs : CompositeDescriptorSource) (t : String) (re fe : List FieldDesc)
    (h1 : cs.reflection.allExtensionsForType t = .ok re)
    (h2 : cs.file.allExtensionsForType t = .ok fe) :
    compositeAllExtensionsForType cs t =
      .ok (re ++ fe.filter (fun e => !(re.any (fun r => r.number = e.number)))) := by
  simp [compositeAllExtensionsForType, h1, h2]

/-- Membership in the merged extension list: a reflection entry is always
kept; a file entry is kept exactly when no reflection entry claims its
field number. -/
lemma compositeAllExt_mem (re fe : List FieldDesc) (x : FieldDesc) :
    x ∈ re ++ fe.filter (fun e => !(re.any (fun r => r.number = e.number))) ↔
      (x ∈ re ∨ (x ∈ fe ∧ ∀ r ∈ re, r.number ≠ x.number)) := by
  simp [List.mem_append, List.mem_filter, List.any_eq_true, decide_eq_true_eq]

/-- Failure iff the expectation check trips: a mongo step (after a
successful operation) fails exactly when a non-zero expectation differs
from the computed affected count. -/
lemma mongo_expect_iff (step : Step) (outcome : MongoOutcome) (vars : Vars) :
    isErr (executeMongoStepCore step outcome vars) = true ↔
      (step.expectAffectedRows ≠ 0 ∧ mongoAffected outcome ≠ step.expectAffectedRows) := by
  by_cases h0 : step.expectAffectedRows = 0
  · simp [executeMongoStepCore, ensureExpectedAffectedRows, h0, isErr]
  · by_cases hm : mongoAffected outcome = step.expectAffectedRows
    · simp [executeMongoStepCore, ensureExpectedAffectedRows, h0, hm, isErr]
    · simp [executeMongoStepCore, ensureExpectedAffectedRows, h0, hm, isErr]

/-- C1 (amended): per save key, a gjson path resolving to an absent or
empty value leaves the variable unset without failing the step and the
remaining keys are still processed (HTTP/RPC/document payloads), and a
NULL value in a matched SQL column is likewise skipped per key; but a SQL
save column that matches no result-set column is a hard error, and a SQL
query declaring save that returns zero rows is a hard error. -/
theorem c1_save_resolution :
    (∀ (resp : Json) (k p : String) (rest : List (String × String)) (vars : Vars),
      gjsonGetString resp p = "" →
        saveValuesEntries resp ((k, p) :: rest) vars = saveValuesEntries resp rest vars) ∧
    (∀ (resp : Json) (k p : String) (rest : List (String × String)) (vars : Vars) (v : String),
      gjsonGetString resp p = v → v ≠ "" →
        saveValuesEntries resp ((k, p) :: rest) vars =
          saveValuesEntries resp rest (setVar vars k v)) ∧
    (∀ (step : Step) (outcome : MongoOutcome) (vars : Vars), step.expectAffectedRows = 0 →
        isErr (executeMongoStepCore step outcome vars) = false) ∧
    (∀ (stepName : String) (cols : List String) (row : List (Option String)) (k col : String)
        (rest : List (String × String)) (vars : Vars) (idx : Nat),
      columnIndexLookup cols (saveTarget k col) = some idx → row.get? idx = some none →
        saveRowEntries stepName cols row ((k, col) :: rest) vars =
          saveRowEntries stepName cols row rest vars) ∧
    (∀ (step : Step) (db : SQLDb) (vars : Vars) (res : SQLQueryResult),
      step.save ≠ [] → db.queryResult = .ok res → res.rows = [] →
        isErr (executeSQLStepCore step db vars) = true) :=
  ⟨saveValuesEntries_skip, saveValuesEntries_set, mongo_ok_of_expect_zero,
   saveRowEntries_null_skip,
   fun step db vars res hs hq hr => by rw [sql_zero_rows_error step db vars res hs hq hr]; rfl⟩

/-- C1 counterexample: for SQL, a save column that matches nothing does
fail the step — the claim's "unmatched target ... does not fail the step"
is false on the code. -/
theorem c1_counterexample :
    executeSQLStepCore { name := "s", save := [("x", "nosuchcol")] }
      { execResult := .ok 0, queryResult := .ok { columns := ["id"], rows := [[some "1"]] } }
      [] =
    .error "step \"s\": column \"nosuchcol\" not found in result set" := rfl

/-- C1 witness: a missing gjson path is skipped while the remaining save
keys of the same step are still processed. -/
theorem c1_save_resolution_witness :
    saveValuesEntries (Json.obj [("user", Json.obj [("id", Json.str "123")])])
      [("missing_var", "missing.value"), ("user_id", "user.id")] [] =
    saveValuesEntries (Json.obj [("user", Json.obj [("id", Json.str "123")])])
      [("user_id", "user.id")] [] :=
  c1_save_resolution.1 (Json.obj [("user", Json.obj [("id", Json.str "123")])])
    "missing_var" "missing.value" [("user_id", "user.id")] [] rfl

/-- C5: a SQL step with save against a zero-row query fails with the hard
error `no rows returned to save`, while a SQL step without save whose
statement reports zero affected rows succeeds (no expectation set). -/
theorem c5_sql_zero_rows :
    (∀ (step : Step) (db : SQLDb) (vars : Vars) (res : SQLQueryResult),
      step.save ≠ [] → db.queryResult = .ok res → res.rows = [] →
        executeSQLStepCore step db vars =
          .error ("execute sql for step \"" ++ step.name ++ "\": no rows returned to save")) ∧
    (∀ (step : Step) (db : SQLDb) (vars : Vars),
      step.save = [] → step.expectAffectedRows = 0 → db.execResult = .ok 0 →
        executeSQLStepCore step db vars = .ok vars) :=
  ⟨sql_zero_rows_error, sql_no_save_ok⟩

/-- C5 witness: the zero-row failure and the zero-affected success on
concrete steps. -/
theorem c5_sql_zero_rows_witness :
    executeSQLStepCore { name := "s", save := [("x", "id")] }
      { execResult := .ok 0, queryResult := .ok { columns := ["id"], rows := [] } } [] =
      .error "execute sql for step \"s\": no rows returned to save" ∧
    executeSQLStepCore { name := "t" }
      { execResult := .ok 0, queryResult := .error "unused" } [] = .ok [] :=
  ⟨c5_sql_zero_rows.1 { name := "s", save := [("x", "id")] }
      { execResult := .ok 0, queryResult := .ok { columns := ["id"], rows := [] } } []
      { columns := ["id"], rows := [] } (by decide) rfl rfl,
   c5_sql_zero_rows.2 { name := "t" }
      { execResult := .ok 0, queryResult := .error "unused" } [] rfl rfl rfl⟩

/-- C7: the composite descriptor source resolves symbols from reflection
first — a reflection hit never consults the static source (the result is
independent of it) — and falls back to the static source exactly on a
reflection miss; extension listings merge both sources deduplicated by
field number, reflection entries taking precedence. -/
theorem c7_composite_descriptor :
    (∀ (rs f1 f2 : DescriptorSource) (name d : String),
      rs.findSymbol name = .ok d →
        compositeFindSymbol ⟨rs, f1⟩ name = .ok d ∧
        compositeFindSymbol ⟨rs, f1⟩ name = compositeFindSymbol ⟨rs, f2⟩ name) ∧
    (∀ (rs f : DescriptorSource) (name e : String),
      rs.findSymbol name = .error e →
        compositeFindSymbol ⟨rs, f⟩ name = f.findSymbol name) ∧
    (∀ (cs : CompositeDescriptorSource) (t : String) (re fe : List FieldDesc),
      cs.reflection.allExtensionsForType t = .ok re →
      cs.file.allExtensionsForType t = .ok fe →
        compositeAllExtensionsForType cs t =
          .ok (re ++ fe.filter (fun e => !(re.any (fun r => r.number = e.number)))) ∧
        ∀ x, x ∈ re ++ fe.filter (fun e => !(re.any (fun r => r.number = e.number))) ↔
              (x ∈ re ∨ (x ∈ fe ∧ ∀ r ∈ re, r.number ≠ x.number))) :=
  ⟨compositeFindSymbol_ok, compositeFindSymbol_fallback,
   fun cs t re fe h1 h2 => ⟨compositeAllExt_ok cs t re fe h1 h2,
     fun x => compositeAllExt_mem re fe x⟩⟩

/-- C7 witness: on fixture sources, a reflection hit short-circuits (same
result whatever the file source), a miss falls back, and the merged
extension list keeps the reflection entry for the conflicting field
number 2. -/
theorem c7_composite_descriptor_witness :
    compositeFindSymbol { reflection := reflFixture, file := fileFixture } "pkg.A" = .ok "reflA" ∧
    compositeFindSymbol { reflection := reflFixture, file := fileFixture } "pkg.A" =
      compositeFindSymbol { reflection := reflFixture, file := fileFixture2 } "pkg.A" ∧
    compositeFindSymbol { reflection := reflFixture, file := fileFixture } "pkg.B" = .ok "fileB" ∧
    compositeAllExtensionsForType { reflection := reflFixture, file := fileFixture } "T" =
      .ok [⟨"reflExt1", 1⟩, ⟨"reflExt2", 2⟩, ⟨"fileExt3", 3⟩] := by
  obtain ⟨h1, h2⟩ := c7_composite_descriptor.1 reflFixture fileFixture fileFixture2 "pkg.A" "reflA" rfl
  refine ⟨h1, h2, ?_, ?_⟩
  · exact (c7_composite_descriptor.2.1 reflFixture fileFixture "pkg.B" "Symbol not found: " rfl).trans rfl
  · exact (c7_composite_descriptor.2.2 { reflection := reflFixture, file := fileFixture } "T"
      [⟨"reflExt1", 1⟩, ⟨"reflExt2", 2⟩] [⟨"fileExt2", 2⟩, ⟨"fileExt3", 3⟩] rfl rfl).1.trans rfl

/-- C8: SQL column matching is case-insensitive; an empty save value
defaults the column to the variable name; values are extracted from the
first result row only while the affected count is the total number of
rows; and a NULL column value is skipped rather than saved as an empty
string. -/
theorem c8_sql_column_extraction :
    (∀ (cols : List String) (t1 t2 : String), strToLower t1 = strToLower t2 →
        columnIndexLookup cols t1 = columnIndexLookup cols t2) ∧
    (∀ (stepName : String) (cols : List String) (row : List (Option String)) (k : String)
        (rest : List (String × String)) (vars : Vars), strTrim k = k →
        saveRowEntries stepName cols row ((k, "") :: rest) vars =
          saveRowEntries stepName cols row ((k, k) :: rest) vars) ∧
    (∀ (step : Step) (db : SQLDb) (vars : Vars) (res : SQLQueryResult)
        (row : List (Option String)) (rest : List (List (Option String))),
      db.queryResult = .ok res → res.rows = row :: rest →
        runSQLAndSave step db vars =
          (saveRowValues step vars row res.columns).map
            (fun v => (((row :: rest).length : Int), v))) ∧
    (∀ (stepName : String) (cols : List String) (row : List (Option String)) (k col : String)
        (rest : List (String × String)) (vars : Vars) (idx : Nat),
      columnIndexLookup cols (saveTarget k col) = some idx → row.get? idx = some none →
        saveRowEntries stepName cols row ((k, col) :: rest) vars =
          saveRowEntries stepName cols row rest vars) :=
  ⟨columnIndexLookup_congr, saveRowEntries_default_col, runSQLAndSave_first_row,
   saveRowEntries_null_skip⟩

/-- C8 witness: a two-row result set with an upper-case column `ID`
matched case-insensitively saves the first row's value and reports two
affected rows. -/
theorem c8_sql_column_extraction_witness :
    runSQLAndSave { name := "q", save := [("user_id", "id")] }
      { execResult := .ok 0,
        queryResult := .ok { columns := ["ID"], rows := [[some "7"], [some "8"]] } }
      [] = .ok (2, [("user_id", "7")]) :=
  (c8_sql_column_extraction.2.2.1 { name := "q", save := [("user_id", "id")] }
    { execResult := .ok 0,
      queryResult := .ok { columns := ["ID"], rows := [[some "7"], [some "8"]] } }
    [] { columns := ["ID"], rows := [[some "7"], [some "8"]] }
    [some "7"] [[some "8"]] rfl rfl).trans rfl

/-- C9: a document-store findOne whose filter matches no document does
not fail the step — affected is 0 and the payload is the JSON null value;
a found document yields affected 1. -/
theorem c9_findone_no_match :
    (∀ (step : Step) (vars : Vars), step.expectAffectedRows = 0 →
      executeMongoStepCore step (.findOne none) vars =
        .ok (0, Json.null,
          if step.save.isEmpty then vars else saveValues Json.null step.save vars)) ∧
    (∀ (step : Step) (vars : Vars) (doc : Json), step.expectAffectedRows = 0 →
      executeMongoStepCore step (.findOne (some doc)) vars =
        .ok (1, doc, if step.save.isEmpty then vars else saveValues doc step.save vars)) := by
  constructor
  · intro step vars h
    simp [executeMongoStepCore, ensureExpectedAffectedRows, h, mongoAffected, mongoResultPayload]
  · intro step vars doc h
    simp [executeMongoStepCore, ensureExpectedAffectedRows, h, mongoAffected, mongoResultPayload]

/-- C9 witness: a concrete no-match findOne succeeds with affected 0 and
the null payload. -/
theorem c9_findone_no_match_witness :
    executeMongoStepCore { name := "m" } (.findOne none) [] = .ok (0, Json.null, []) :=
  c9_findone_no_match.1 { name := "m" } [] rfl

/-- C10 (implicit): the affected-row expectation also applies to every
document-store operation with the SQL semantics — a step fails exactly
when a non-zero expectation differs from the operation's computed
affected count, the per-operation counts being findOne 0/1, find and
aggregate the document count, insertOne and command 1, updateOne the
modified-or-upsert count, deleteOne the deleted count. -/
theorem c10_mongo_expectation :
    (∀ (step : Step) (outcome : MongoOutcome) (vars : Vars),
      isErr (executeMongoStepCore step outcome vars) = true ↔
        (step.expectAffectedRows ≠ 0 ∧ mongoAffected outcome ≠ step.expectAffectedRows)) ∧
    mongoAffected (.findOne none) = 0 ∧
    (∀ doc, mongoAffected (.findOne (some doc)) = 1) ∧
    (∀ docs, mongoAffected (.find docs) = (docs.length : Int)) ∧
    (∀ docs, mongoAffected (.aggregate docs) = (docs.length : Int)) ∧
    (∀ j, mongoAffected (.insertOne j) = 1) ∧
    (∀ r, mongoAffected (.command r) = 1) ∧
    (∀ matched modified upserted upsertedId,
      mongoAffected (.updateOne matched modified upserted upsertedId) =
        if modified = 0 ∧ 0 < upserted then upserted else modified) ∧
    (∀ deleted, mongoAffected (.deleteOne deleted) = deleted) :=
  ⟨mongo_expect_iff, rfl, fun _ => rfl, fun _ => rfl, fun _ => rfl, fun _ => rfl,
   fun _ => rfl, fun _ _ _ _ => rfl, fun _ => rfl⟩

/-- C10 witness: a mongo deleteOne with deleted count 1 under expectation
2 fails; the same outcome under expectation 1 passes. -/
theorem c10_mongo_expectation_witness :
    isErr (executeMongoStepCore { name := "m", expectAffectedRows := 2 } (.deleteOne 1) []) =
      true ∧
    isErr (executeMongoStepCore { name := "m", expectAffectedRows := 1 } (.deleteOne 1) []) =
      false := by
  constructor
  · exact (c10_mongo_expectation.1 { name := "m", expectAffectedRows := 2 }
      (.deleteOne 1) []).mpr (by decide)
  · by_cases h : isErr (executeMongoStepCore { name := "m", expectAffectedRows := 1 }
        (.deleteOne 1) []) = true
    · exact absurd ((c10_mongo_expectation.1 { name := "m", expectAffectedRows := 1 }
        (.deleteOne 1) []).mp h) (by decide)
    · simpa using h

end GoFlow
